import Mathlib

/-!
Verification of the document store / retrieval pipeline of `src/backend/server.js`.

The JavaScript source is shallowly embedded: strings are `String` (lists of
characters), numeric vectors are `List ℝ`, the in-memory `documents` object is an
association list preserving insertion order, and the on-disk `storage.json` copy
is a second such mapping carried in an explicit server state.  Fallible external
calls (the embedding capability, the generation capability, `fs.writeFileSync`)
are passed in as parameters or modelled with `Except`/`Bool`.
-/

/-! ### Chunker (`chunkText`, server.js lines 79-87)

The JS loop `while (i < text.length) { chunks.push(text.slice(i, i + chunkSize));
i += chunkSize - overlap; }` is modelled fuel-indexed, with the loop index in `ℤ`
exactly as in JS (so a configuration with `overlap > chunkSize` makes the index
decrease, and `overlap = chunkSize` leaves it unchanged); `none` means the fuel
ran out while the loop condition still held, i.e. the loop did not terminate
within the given number of iterations. -/

def chunkLoop (cs : List Char) (chunkSize overlap : ℕ) : ℕ → ℤ → Option (List (List Char))
  | 0, i => if i < (cs.length : ℤ) then none else some []
  | fuel + 1, i =>
    if i < (cs.length : ℤ) then
      (chunkLoop cs chunkSize overlap fuel (i + ((chunkSize : ℤ) - (overlap : ℤ)))).map
        (fun rest => ((cs.drop i.toNat).take chunkSize) :: rest)
    else some []

/-- Model of `chunkText(text, chunkSize = 800, overlap = 200)`: run the loop from
index `0` with enough fuel (`length + 1` iterations are always enough for a
terminating configuration, see `chunkLoop_spec`). -/
def chunkText (text : String) (chunkSize overlap : ℕ) : List String :=
  ((chunkLoop text.data chunkSize overlap (text.data.length + 1) 0).getD []).map String.mk

/-- Ceiling division on naturals, used to state the chunk-count law. -/
def ceilingDiv (a b : ℕ) : ℕ := (a + b - 1) / b

theorem ceilingDiv_zero (b : ℕ) (hb : 0 < b) : ceilingDiv 0 b = 0 := by
  unfold ceilingDiv
  exact Nat.div_eq_of_lt (by omega)

theorem ceilingDiv_step (n b : ℕ) (hb : 0 < b) (hn : 0 < n) :
    ceilingDiv n b = ceilingDiv (n - b) b + 1 := by
  unfold ceilingDiv
  rcases le_or_lt n b with h | h
  · have h1 : n - b = 0 := by omega
    rw [h1]
    have h2 : n + b - 1 = (n - 1) + b := by omega
    rw [h2, Nat.add_div_right _ hb, Nat.div_eq_of_lt (by omega),
      Nat.div_eq_of_lt (show 0 + b - 1 < b by omega)]
  · have h2 : n + b - 1 = ((n - b) + b - 1) + b := by omega
    rw [h2, Nat.add_div_right _ hb]

/-- Main characterization of the chunk loop for a valid configuration
`overlap < chunkSize`: from a nonnegative index `i`, with more fuel than
remaining characters, the loop terminates and returns the windows of length
`chunkSize` starting at `i, i + step, i + 2*step, ...` for `step = chunkSize -
overlap`, one window per start offset below the text length. -/
theorem chunkLoop_spec (cs : List Char) (chunkSize overlap : ℕ)
    (hov : overlap < chunkSize) :
    ∀ (fuel : ℕ) (i : ℕ), cs.length - i < fuel →
      chunkLoop cs chunkSize overlap fuel (i : ℤ) =
        some ((List.range (ceilingDiv (cs.length - i) (chunkSize - overlap))).map
          (fun k => (cs.drop (i + k * (chunkSize - overlap))).take chunkSize)) := by
  intro fuel
  induction fuel with
  | zero => intro i hi; omega
  | succ fuel ih =>
    intro i hi
    by_cases hlt : i < cs.length
    · have hstep : (0 : ℕ) < chunkSize - overlap := by omega
      have hcast : (i : ℤ) + ((chunkSize : ℤ) - (overlap : ℤ))
          = ((i + (chunkSize - overlap) : ℕ) : ℤ) := by
        push_cast [Nat.cast_sub hov.le]
        ring
      have hfuel : cs.length - (i + (chunkSize - overlap)) < fuel := by omega
      have hrec := ih (i + (chunkSize - overlap)) hfuel
      unfold chunkLoop
      rw [if_pos (by exact_mod_cast hlt), hcast, hrec]
      simp only [Option.map_some']
      congr 1
      have hcount : ceilingDiv (cs.length - i) (chunkSize - overlap)
          = ceilingDiv (cs.length - (i + (chunkSize - overlap))) (chunkSize - overlap) + 1 := by
        have := ceilingDiv_step (cs.length - i) (chunkSize - overlap) hstep (by omega)
        rw [this]
        congr 2
        omega
      rw [hcount, List.range_succ_eq_map, List.map_cons, List.map_map]
      congr 1
      · simp [Int.toNat_natCast]
      · apply List.map_congr_left
        intro k _
        simp only [Function.comp_apply]
        congr 2
        have : i + Nat.succ k * (chunkSize - overlap)
            = i + (chunkSize - overlap) + k * (chunkSize - overlap) := by
          rw [Nat.succ_mul]; omega
        omega
    · unfold chunkLoop
      rw [if_neg (by exact_mod_cast hlt)]
      have h0 : cs.length - i = 0 := by omega
      rw [h0, ceilingDiv_zero _ (by omega)]
      simp

/-- Amended claim C2: for `0 ≤ overlap < size`, `chunkText` returns the windows
`T[k*step, k*step+size)` for `k = 0, 1, ...` while `k*step < len(T)` (step =
`size - overlap`), in offset order, and the number of chunks is
`ceil(len(T) / step)` — which is `0` for empty `T`. -/
theorem c2_chunkText_windows (T : String) (chunkSize overlap : ℕ)
    (hov : overlap < chunkSize) :
    chunkText T chunkSize overlap =
      (List.range (ceilingDiv T.data.length (chunkSize - overlap))).map
        (fun k => String.mk ((T.data.drop (k * (chunkSize - overlap))).take chunkSize)) ∧
    (chunkText T chunkSize overlap).length
      = ceilingDiv T.data.length (chunkSize - overlap) := by
  have h := chunkLoop_spec T.data chunkSize overlap hov (T.data.length + 1) 0 (by omega)
  have heq : chunkText T chunkSize overlap =
      (List.range (ceilingDiv T.data.length (chunkSize - overlap))).map
        (fun k => String.mk ((T.data.drop (k * (chunkSize - overlap))).take chunkSize)) := by
    unfold chunkText
    rw [show ((0 : ℕ) : ℤ) = (0 : ℤ) from rfl] at h
    rw [h]
    simp only [Option.getD_some, List.map_map]
    apply List.map_congr_left
    intro k _
    simp [Function.comp_apply]
  refine ⟨heq, ?_⟩
  rw [heq]
  simp

/-- Counterexample to claim C2 as stated: the text `"abc"` with `size = 4`,
`overlap = 2` is non-empty and shorter than `size`, so the claim predicts a
single chunk; the code produces the two chunks `["abc", "c"]` (the loop also
starts a window at offset `2 < 3`). -/
theorem c2_chunk_count_counterexample :
    chunkText "abc" 4 2 = ["abc", "c"] ∧ (chunkText "abc" 4 2).length ≠ 1 := by
  constructor
  · rfl
  · decide

/-- Claim C9: for `overlap < size` the chunk loop terminates — fuel
`len(T) + 1` (indeed any fuel larger than `len(T)`) suffices, because the index
strictly increases by `size - overlap ≥ 1` per iteration; for `overlap ≥ size`
and non-empty text the loop makes no progress (the index never increases past
`0`), so it exhausts any amount of fuel — the caller must guard against that
configuration. -/
theorem c9_chunk_termination (cs : List Char) (chunkSize overlap : ℕ) :
    (overlap < chunkSize → ∀ fuel, cs.length < fuel →
      (chunkLoop cs chunkSize overlap fuel 0).isSome = true) ∧
    (chunkSize ≤ overlap → cs ≠ [] → ∀ fuel,
      chunkLoop cs chunkSize overlap fuel 0 = none) := by
  constructor
  · intro hov fuel hfuel
    have h := chunkLoop_spec cs chunkSize overlap hov fuel 0 (by omega)
    rw [show ((0 : ℕ) : ℤ) = (0 : ℤ) from rfl] at h
    rw [h]
    rfl
  · intro hov hne fuel
    have hlen : 0 < cs.length := List.length_pos.mpr hne
    have key : ∀ (f : ℕ) (i : ℤ), i ≤ 0 → chunkLoop cs chunkSize overlap f i = none := by
      intro f
      induction f with
      | zero =>
        intro i hi
        unfold chunkLoop
        rw [if_pos (by exact_mod_cast lt_of_le_of_lt hi (by exact_mod_cast hlen))]
      | succ f ihf =>
        intro i hi
        unfold chunkLoop
        rw [if_pos (by exact_mod_cast lt_of_le_of_lt hi (by exact_mod_cast hlen))]
        rw [ihf (i + ((chunkSize : ℤ) - (overlap : ℤ))) (by
          have : (chunkSize : ℤ) - (overlap : ℤ) ≤ 0 := by
            simp only [sub_nonpos]
            exact_mod_cast hov
          omega)]
        rfl
    exact key fuel 0 le_rfl

/-- Witness for C9 at concrete inputs: `"ab"` with `size = 2`, `overlap = 1`
terminates with fuel `3`, while `"a"` with `size = overlap = 1` exhausts fuel
`5`. -/
theorem c9_chunk_termination_witness :
    (chunkLoop "ab".data 2 1 3 0).isSome = true ∧
    chunkLoop "a".data 1 1 5 0 = none :=
  ⟨(c9_chunk_termination "ab".data 2 1).1 (by decide) 3 (by decide),
   (c9_chunk_termination "a".data 1 1).2 (by decide) (by decide) 5⟩

/-- Witness for C2 (amended) at the concrete input `"abcde"`, `size = 3`,
`overlap = 1`. -/
theorem c2_chunkText_windows_witness :
    chunkText "abcde" 3 1 =
      (List.range (ceilingDiv "abcde".data.length (3 - 1))).map
        (fun k => String.mk (("abcde".data.drop (k * (3 - 1))).take 3)) ∧
    (chunkText "abcde" 3 1).length = ceilingDiv "abcde".data.length (3 - 1) :=
  c2_chunkText_windows "abcde" 3 1 (by decide)

/-! ### Data model (server.js line 27)

A document is `{ filename, chunks: [{text, embedding}], history: [{q, a,
createdAt}], createdAt }`; the global `documents` object maps document ids to
documents.  A JS object used as a map keeps each key at its first-insertion
position and replaces the value in place on re-assignment, which an association
list with replace-or-append insertion models. -/

structure Chunk where
  text : String
  embedding : List ℝ

structure HistoryEntry where
  q : String
  a : String
  createdAt : ℕ

structure Document where
  filename : String
  chunks : List Chunk
  history : List HistoryEntry
  createdAt : ℕ

abbrev Store := List (String × Document)

/-- Lookup `documents[docId]`: the first (unique) entry with the given key. -/
def lookupStore (s : Store) (key : String) : Option Document :=
  (List.find? (fun p => p.1 == key) s).map Prod.snd

/-- Model of the assignment `documents[docId] = doc` (server.js line 142): a JS
object has at most one entry per key, so assignment replaces the value of an
existing key in place and otherwise appends a new entry.  There is no
duplicate-id check in the source. -/
def putDoc : Store → String → Document → Store
  | [], key, d => [(key, d)]
  | p :: s, key, d => if p.1 == key then (key, d) :: s else p :: putDoc s key d

theorem lookup_putDoc (s : Store) (key : String) (d : Document) :
    lookupStore (putDoc s key d) key = some d := by
  induction s with
  | nil => simp [putDoc, lookupStore, List.find?]
  | cons p s ih =>
    by_cases hp : p.1 == key
    · simp [putDoc, lookupStore, List.find?, hp]
    · simp only [putDoc, if_neg hp]
      simpa [lookupStore, List.find?, hp] using ih

theorem lookup_putDoc_ne (s : Store) (key key' : String) (d : Document)
    (hne : key' ≠ key) :
    lookupStore (putDoc s key d) key' = lookupStore s key' := by
  induction s with
  | nil =>
    simp only [putDoc, lookupStore, List.find?]
    have : (key == key') = false := by
      simp [Ne.symm hne]
    simp [this]
  | cons p s ih =>
    by_cases hp : p.1 == key
    · have hkey : p.1 = key := by simpa using hp
      have hp' : (p.1 == key') = false := by simp [hkey, Ne.symm hne]
      have hk' : (key == key') = false := by simp [Ne.symm hne]
      simp [putDoc, lookupStore, List.find?, hp, hp', hk']
    · by_cases hp' : p.1 == key'
      · simp [putDoc, lookupStore, List.find?, hp, hp']
      · simp only [putDoc, if_neg hp]
        simpa [lookupStore, List.find?, hp, hp'] using ih

/-- Amended claim C1: inserting a document whose id already exists does not
fail — the upload handler assigns `documents[docId]` unconditionally, so the
existing document is overwritten (the id now maps to the new document) while
every other id keeps its previous mapping.  No `DuplicateId` error exists in
the code. -/
theorem c1_put_duplicate_overwrites (s : Store) (key : String) (d : Document)
    (_hdup : (lookupStore s key).isSome = true) :
    lookupStore (putDoc s key d) key = some d ∧
    ∀ key', key' ≠ key → lookupStore (putDoc s key d) key' = lookupStore s key' := by
  exact ⟨lookup_putDoc s key d, fun key' h => lookup_putDoc_ne s key key' d h⟩

/-- Two concrete documents that differ (in their filename). -/
def docA : Document := ⟨"a.txt", [], [], 0⟩

def docB : Document := ⟨"b.txt", [], [], 0⟩

/-- Counterexample to claim C1 as stated: with the store `{"1": docA}`,
inserting `docB` under the already-present id `"1"` leaves the store changed
(the claim asserts the store is unchanged by such an insertion, after a
`DuplicateId` failure that the code does not have). -/
theorem c1_put_overwrites_counterexample :
    putDoc [("1", docA)] "1" docB ≠ [("1", docA)] := by
  intro h
  have h1 : putDoc [("1", docA)] "1" docB = [("1", docB)] := rfl
  rw [h1] at h
  have h2 : docB = docA := by
    injection h with h3 _
    injection h3
  have : docB.filename = docA.filename := congrArg Document.filename h2
  simp [docA, docB] at this

/-- Witness for the amended C1 at a concrete duplicate insertion. -/
theorem c1_put_duplicate_overwrites_witness :
    lookupStore (putDoc [("1", docA)] "1" docB) "1" = some docB ∧
    ∀ key', key' ≠ "1" →
      lookupStore (putDoc [("1", docA)] "1" docB) key' = lookupStore [("1", docA)] key' :=
  c1_put_duplicate_overwrites [("1", docA)] "1" docB rfl

/-! ### Cosine similarity (`cosineSimilarity`, server.js lines 102-108)

The dot product `a.reduce((s, ai, i) => s + ai * b[i], 0)` pairs the i-th
entries of the two vectors, which for equal-length vectors is the sum of the
pointwise products; `na`/`nb` are the Euclidean magnitudes; a zero magnitude on
either side short-circuits to `0` before the division. -/

noncomputable def magnitude (v : List ℝ) : ℝ :=
  Real.sqrt ((v.map (fun x => x * x)).sum)

noncomputable def cosineSimilarity (a b : List ℝ) : ℝ :=
  if magnitude a = 0 ∨ magnitude b = 0 then 0
  else (List.zipWith (fun x y => x * y) a b).sum / (magnitude a * magnitude b)

theorem sumSq_nonneg (v : List ℝ) : 0 ≤ (v.map (fun x => x * x)).sum := by
  apply List.sum_nonneg
  intro x hx
  obtain ⟨y, _, rfl⟩ := List.mem_map.mp hx
  exact mul_self_nonneg y

theorem magnitude_pos_of_ne (v : List ℝ) (h : ∃ x ∈ v, x ≠ 0) : 0 < magnitude v := by
  obtain ⟨x, hmem, hx⟩ := h
  have hsq : 0 < x * x := mul_self_pos.mpr hx
  have hle : x * x ≤ (v.map (fun y => y * y)).sum := by
    apply List.single_le_sum (fun y hy => ?_) _ (List.mem_map_of_mem _ hmem)
    obtain ⟨z, _, rfl⟩ := List.mem_map.mp hy
    exact mul_self_nonneg z
  exact Real.sqrt_pos.mpr (lt_of_lt_of_le hsq hle)

/-- Claim C5: cosine similarity is symmetric on equal-length vectors, equals
`1` on any nonzero vector paired with itself, and returns exactly `0` whenever
either argument has zero magnitude (no division by zero, no error). -/
theorem c5_cosine_properties :
    (∀ a b : List ℝ, a.length = b.length →
      cosineSimilarity a b = cosineSimilarity b a) ∧
    (∀ v : List ℝ, (∃ x ∈ v, x ≠ 0) → cosineSimilarity v v = 1) ∧
    (∀ a b : List ℝ, magnitude a = 0 ∨ magnitude b = 0 → cosineSimilarity a b = 0) := by
  refine ⟨?_, ?_, ?_⟩
  · intro a b _
    unfold cosineSimilarity
    rw [List.zipWith_comm_of_comm _ mul_comm a b]
    exact if_congr or_comm rfl (by rw [mul_comm (magnitude a)])
  · intro v hv
    have hpos := magnitude_pos_of_ne v hv
    unfold cosineSimilarity
    rw [if_neg (by push_neg; exact ⟨ne_of_gt hpos, ne_of_gt hpos⟩)]
    rw [List.zipWith_same]
    unfold magnitude
    rw [Real.mul_self_sqrt (sumSq_nonneg v)]
    exact div_self (by
      have := Real.sqrt_pos.mpr (Real.sqrt_pos.mp hpos)
      nlinarith [Real.sqrt_pos.mp (show 0 < magnitude v from hpos)])
  · intro a b h
    unfold cosineSimilarity
    rw [if_pos h]

/-- Witness for C5 at concrete vectors: symmetry at `[1, 2]`/`[3, 4]`, the
self-similarity of `[1]`, and the zero-magnitude case `[0]` against `[2]`. -/
theorem c5_cosine_properties_witness :
    cosineSimilarity [(1 : ℝ), 2] [3, 4] = cosineSimilarity [3, 4] [(1 : ℝ), 2] ∧
    cosineSimilarity [(1 : ℝ)] [(1 : ℝ)] = 1 ∧
    cosineSimilarity [(0 : ℝ)] [(2 : ℝ)] = 0 :=
  ⟨c5_cosine_properties.1 [1, 2] [3, 4] rfl,
   c5_cosine_properties.2.1 [1] ⟨1, by simp, one_ne_zero⟩,
   c5_cosine_properties.2.2 [0] [2] (Or.inl (by simp [magnitude]))⟩

/-! ### Similarity ranking (server.js lines 188-192)

`scored.sort((a, b) => b.score - a.score)` uses the JS built-in sort, which the
language specification requires to be stable; with this comparator the result
is ordered by descending score with equal-score elements kept in their original
order.  A stable sort with that ordering is modelled by insertion sort that
inserts each element before the first existing element whose score is not
larger. -/

noncomputable def insertDesc (x : String × ℝ) : List (String × ℝ) → List (String × ℝ)
  | [] => [x]
  | y :: ys => if x.2 < y.2 then y :: insertDesc x ys else x :: y :: ys

noncomputable def sortByScoreDesc : List (String × ℝ) → List (String × ℝ)
  | [] => []
  | x :: xs => insertDesc x (sortByScoreDesc xs)

/-- Model of `chunks.map(c => ({text, score})) |> sort desc` in the ask
handler: score every chunk against the query vector, then sort by descending
score. -/
noncomputable def scoreChunks (qVec : List ℝ) (chunks : List Chunk) : List (String × ℝ) :=
  chunks.map (fun c => (c.text, cosineSimilarity qVec c.embedding))

noncomputable def rankChunks (qVec : List ℝ) (chunks : List Chunk) : List (String × ℝ) :=
  sortByScoreDesc (scoreChunks qVec chunks)

theorem mem_insertDesc (x z : String × ℝ) (l : List (String × ℝ)) :
    z ∈ insertDesc x l ↔ z = x ∨ z ∈ l := by
  induction l with
  | nil => simp [insertDesc]
  | cons y ys ih =>
    unfold insertDesc
    by_cases h : x.2 < y.2
    · rw [if_pos h]
      simp [ih]
      tauto
    · rw [if_neg h]
      simp

theorem pairwise_insertDesc (x : String × ℝ) (l : List (String × ℝ))
    (hl : l.Pairwise (fun a b => b.2 ≤ a.2)) :
    (insertDesc x l).Pairwise (fun a b => b.2 ≤ a.2) := by
  induction l with
  | nil => simp [insertDesc]
  | cons y ys ih =>
    rw [List.pairwise_cons] at hl
    obtain ⟨hy, hys⟩ := hl
    unfold insertDesc
    by_cases h : x.2 < y.2
    · rw [if_pos h]
      rw [List.pairwise_cons]
      refine ⟨?_, ih hys⟩
      intro z hz
      rcases (mem_insertDesc x z ys).mp hz with rfl | hz'
      · exact le_of_lt h
      · exact hy z hz'
    · rw [if_neg h]
      rw [List.pairwise_cons]
      refine ⟨?_, List.pairwise_cons.mpr ⟨hy, hys⟩⟩
      intro z hz
      rcases List.mem_cons.mp hz with rfl | hz'
      · exact not_lt.mp h
      · exact le_trans (hy z hz') (not_lt.mp h)

theorem pairwise_sortByScoreDesc (l : List (String × ℝ)) :
    (sortByScoreDesc l).Pairwise (fun a b => b.2 ≤ a.2) := by
  induction l with
  | nil => simp [sortByScoreDesc]
  | cons x xs ih => exact pairwise_insertDesc x (sortByScoreDesc xs) ih

theorem filter_insertDesc_ne (x : String × ℝ) (l : List (String × ℝ)) (s : ℝ)
    (hx : x.2 ≠ s) :
    (insertDesc x l).filter (fun c => decide (c.2 = s))
      = l.filter (fun c => decide (c.2 = s)) := by
  induction l with
  | nil => simp [insertDesc, hx]
  | cons y ys ih =>
    unfold insertDesc
    by_cases h : x.2 < y.2
    · rw [if_pos h]
      by_cases hy : y.2 = s
      · simp [List.filter, hy, ih]
      · simp [List.filter, hy, ih]
    · rw [if_neg h]
      simp [List.filter, hx]

theorem filter_insertDesc_eq (x : String × ℝ) (l : List (String × ℝ)) (s : ℝ)
    (hx : x.2 = s) :
    (insertDesc x l).filter (fun c => decide (c.2 = s))
      = x :: l.filter (fun c => decide (c.2 = s)) := by
  induction l with
  | nil => simp [insertDesc, hx]
  | cons y ys ih =>
    unfold insertDesc
    by_cases h : x.2 < y.2
    · rw [if_pos h]
      have hy : ¬ y.2 = s := by
        intro hys
        rw [hx, ← hys] at h
        exact lt_irrefl _ h
      simp [List.filter, hy, ih]
    · rw [if_neg h]
      simp [List.filter, hx]

theorem filter_sortByScoreDesc (l : List (String × ℝ)) (s : ℝ) :
    (sortByScoreDesc l).filter (fun c => decide (c.2 = s))
      = l.filter (fun c => decide (c.2 = s)) := by
  induction l with
  | nil => rfl
  | cons x xs ih =>
    unfold sortByScoreDesc
    by_cases hx : x.2 = s
    · rw [filter_insertDesc_eq x _ s hx, ih]
      simp [List.filter, hx]
    · rw [filter_insertDesc_ne x _ s hx, ih]
      simp [List.filter, hx]

/-- Claim C6: for every query vector and chunk sequence, the ranked output is
sorted by descending score (each element's score is at least the next one's),
and the sort is stable — for every score value, the sublist of entries having
that score is exactly the same, in the same order, as in the unsorted scored
list. -/
theorem c6_rank_sorted_stable (qVec : List ℝ) (chunks : List Chunk) :
    (rankChunks qVec chunks).Pairwise (fun a b => b.2 ≤ a.2) ∧
    ∀ s : ℝ, (rankChunks qVec chunks).filter (fun c => decide (c.2 = s))
      = (scoreChunks qVec chunks).filter (fun c => decide (c.2 = s)) :=
  ⟨pairwise_sortByScoreDesc _, fun s => filter_sortByScoreDesc _ s⟩

/-! ### Embedding gateway (`embedText`, server.js lines 90-100)

The SDK response is probed for three shapes in order: `response.embedding.values`,
`response.data[0].embedding`, `response.embeddings[0].values`; if none is
present the function throws an error whose message appends the first 200
characters of `JSON.stringify(response)` (an external builtin, passed in as the
`dump` parameter) to a fixed prefix.  Absent/null fields are `none`. -/

structure EmbeddingField where
  values : Option (List ℝ)

structure DataItem where
  embedding : Option (List ℝ)

structure EmbedResponse where
  embedding : Option EmbeddingField
  data : Option (List DataItem)
  embeddings : Option (List EmbeddingField)

def shapeDirect (r : EmbedResponse) : Option (List ℝ) :=
  r.embedding.bind (fun e => e.values)

def shapeDataList (r : EmbedResponse) : Option (List ℝ) :=
  (r.data.bind List.head?).bind (fun d => d.embedding)

def shapeNested (r : EmbedResponse) : Option (List ℝ) :=
  (r.embeddings.bind List.head?).bind (fun e => e.values)

/-- First 200 characters, as in `JSON.stringify(response).slice(0, 200)`. -/
def truncate200 (s : String) : String := String.mk (s.data.take 200)

def embedText (dump : EmbedResponse → String) (r : EmbedResponse) :
    Except String (List ℝ) :=
  match shapeDirect r with
  | some v => .ok v
  | none =>
    match shapeDataList r with
    | some v => .ok v
    | none =>
      match shapeNested r with
      | some v => .ok v
      | none => .error ("Unexpected embedding response shape: " ++ truncate200 (dump r))

/-- Claim C7: a response matching one of the three recognized shapes (tried in
the code's order) yields that flat numeric vector; a response matching none of
them fails with the unrecognized-shape error, whose message carries a dump of
the raw response truncated to at most 200 characters. -/
theorem c7_embedText_shapes (dump : EmbedResponse → String) (r : EmbedResponse) :
    (∀ v, shapeDirect r = some v → embedText dump r = .ok v) ∧
    (shapeDirect r = none → ∀ v, shapeDataList r = some v → embedText dump r = .ok v) ∧
    (shapeDirect r = none → shapeDataList r = none →
      ∀ v, shapeNested r = some v → embedText dump r = .ok v) ∧
    (shapeDirect r = none → shapeDataList r = none → shapeNested r = none →
      embedText dump r
        = .error ("Unexpected embedding response shape: " ++ truncate200 (dump r)) ∧
      (truncate200 (dump r)).length ≤ 200) := by
  refine ⟨?_, ?_, ?_, ?_⟩
  · intro v h1
    unfold embedText
    rw [h1]
  · intro h1 v h2
    unfold embedText
    rw [h1, h2]
  · intro h1 h2 v h3
    unfold embedText
    rw [h1, h2, h3]
  · intro h1 h2 h3
    constructor
    · unfold embedText
      rw [h1, h2, h3]
    · show ((dump r).data.take 200).length ≤ 200
      rw [List.length_take]
      exact min_le_left _ _

/-- A concrete dump function and two concrete responses for the C7 witness. -/
def dumpConst : EmbedResponse → String := fun _ => "raw response"

def respDirect : EmbedResponse := ⟨some ⟨some [1, 2]⟩, none, none⟩

def respEmpty : EmbedResponse := ⟨none, some [], some []⟩

/-- Witness for C7: the direct shape is returned as-is, and a response
matching no shape produces the truncated-dump error. -/
theorem c7_embedText_shapes_witness :
    embedText dumpConst respDirect = .ok [(1 : ℝ), 2] ∧
    embedText dumpConst respEmpty
      = .error ("Unexpected embedding response shape: " ++ truncate200 (dumpConst respEmpty)) ∧
    (truncate200 (dumpConst respEmpty)).length ≤ 200 :=
  ⟨(c7_embedText_shapes dumpConst respDirect).1 [1, 2] rfl,
   ((c7_embedText_shapes dumpConst respEmpty).2.2.2 rfl rfl rfl).1,
   ((c7_embedText_shapes dumpConst respEmpty).2.2.2 rfl rfl rfl).2⟩

/-! ### History rendering (server.js lines 199-208)

`(doc.history || []).slice(-6).map(h => "Q: " + h.q + "\nA: " + h.a).join("\n\n")`
takes the last (at most) six entries in chronological order and joins the
rendered pairs; in the prompt template the expression
`recentHistory || "None"` substitutes the literal `"None"` when the rendered
string is empty — which happens exactly when there are no entries, since every
rendered entry starts with `"Q: "`. -/

def renderEntry (h : HistoryEntry) : String :=
  "Q: " ++ h.q ++ "\nA: " ++ h.a

/-- Model of `Array.prototype.join(sep)`. -/
def joinSep (sep : String) : List String → String
  | [] => ""
  | [x] => x
  | x :: y :: ys => x ++ sep ++ joinSep sep (y :: ys)

/-- The `recentHistory` string of the ask handler (before the `|| "None"`
default): last six history entries, oldest first, rendered and joined. -/
def recentHistoryStr (hist : List HistoryEntry) : String :=
  joinSep "\n\n" ((hist.drop (hist.length - 6)).map renderEntry)

/-- The history section as interpolated into the prompt:
`${recentHistory || "None"}`. -/
def historySection (hist : List HistoryEntry) : String :=
  if recentHistoryStr hist = "" then "None" else recentHistoryStr hist

theorem joinSep_length_ge (sep : String) (x : String) (xs : List String) :
    x.length ≤ (joinSep sep (x :: xs)).length := by
  cases xs with
  | nil => simp [joinSep]
  | cons y ys =>
    show x.length ≤ (x ++ sep ++ joinSep sep (y :: ys)).length
    rw [String.length_append, String.length_append]
    omega

/-- Claim C8: the history section of the prompt holds exactly the most recent
`min(n, 6)` entries, oldest of that subset first (stated via reverse/take:
the last six in original order), rendered as alternating Q/A pairs, and is the
literal `"None"` exactly for an empty history. -/
theorem c8_history_section (hist : List HistoryEntry) :
    (hist = [] → historySection hist = "None") ∧
    (hist ≠ [] →
      historySection hist
        = joinSep "\n\n" (((hist.reverse.take 6).reverse).map renderEntry) ∧
      ((hist.reverse.take 6).reverse).length = min 6 hist.length) := by
  have key : (hist.reverse.take 6).reverse = hist.drop (hist.length - 6) := by
    rw [List.take_reverse, List.reverse_reverse]
  constructor
  · intro h
    subst h
    rfl
  · intro hne
    have hlen : 0 < hist.length := List.length_pos.mpr hne
    have hd : hist.drop (hist.length - 6) ≠ [] := by
      intro hnil
      rw [List.drop_eq_nil_iff] at hnil
      omega
    obtain ⟨r, rs, hr⟩ := List.exists_cons_of_ne_nil hd
    have hs : recentHistoryStr hist ≠ "" := by
      intro h0
      have h1 : (recentHistoryStr hist).length = 0 := by rw [h0]; rfl
      unfold recentHistoryStr at h1
      rw [hr, List.map_cons] at h1
      have h2 := joinSep_length_ge "\n\n" (renderEntry r) (rs.map renderEntry)
      have h3 : 3 ≤ (renderEntry r).length := by
        unfold renderEntry
        rw [String.length_append, String.length_append, String.length_append]
        have : ("Q: " : String).length = 3 := rfl
        omega
      omega
    constructor
    · unfold historySection
      rw [if_neg hs, key]
      rfl
    · rw [key, List.length_drop]
      omega

/-- Eight concrete history entries for the C8 witness scenario. -/
def histEntry (i : ℕ) : HistoryEntry := ⟨"q", "a", i⟩

def hist8 : List HistoryEntry :=
  [histEntry 1, histEntry 2, histEntry 3, histEntry 4,
   histEntry 5, histEntry 6, histEntry 7, histEntry 8]

/-- Witness for C8: after eight question/answer pairs, the rendered history
section used for the ninth prompt holds exactly the most recent six entries,
oldest first. -/
theorem c8_history_section_witness :
    historySection hist8
      = joinSep "\n\n"
        ([histEntry 3, histEntry 4, histEntry 5,
          histEntry 6, histEntry 7, histEntry 8].map renderEntry) ∧
    ((hist8.reverse.take 6).reverse).length = min 6 hist8.length := by
  have h := (c8_history_section hist8).2 (by simp [hist8])
  refine ⟨?_, h.2⟩
  rw [h.1]
  rfl

/-! ### Server state and persistence (server.js lines 27, 38-40)

The process holds the in-memory `documents` mapping; `storage.json` holds the
durable copy, rewritten in full by the synchronous `saveDocuments()`
(`fs.writeFileSync`).  Whether that write succeeds is a parameter; a failed
write throws, leaving the durable copy untouched while the in-memory mapping
keeps any mutation already applied. -/

structure ServerState where
  documents : Store
  disk : Store

def saveDocuments (writeOk : Bool) (st : ServerState) : Except String ServerState :=
  if writeOk then .ok { st with disk := st.documents } else .error "write failed"

theorem saveDocuments_ok (writeOk : Bool) (st st' : ServerState)
    (h : saveDocuments writeOk st = .ok st') : st'.disk = st'.documents := by
  unfold saveDocuments at h
  by_cases hw : writeOk
  · rw [if_pos hw] at h
    injection h with h1
    rw [← h1]
  · rw [if_neg hw] at h
    exact absurd h (by simp)

/-! ### Upload handler (server.js lines 113-160)

After extraction, the text is chunked and the chunks embedded strictly one at a
time in order; only when every chunk embedded successfully is the document
created under `docId = Date.now().toString()` and the store saved.  Any thrown
error (an embedding failure, or a failed save) is caught and answered with a
500 failure response. -/

def embedChunks (embed : String → Except String (List ℝ)) :
    List String → Except String (List Chunk)
  | [] => .ok []
  | c :: cs =>
    match embed c with
    | .error e => .error e
    | .ok v =>
      match embedChunks embed cs with
      | .error e => .error e
      | .ok rest => .ok (⟨c, v⟩ :: rest)

inductive UploadResult where
  | success (docId filename : String) (chunksCount : ℕ)
  | failure (msg : String)

def UploadResult.isSuccess : UploadResult → Bool
  | .success _ _ _ => true
  | .failure _ => false

def uploadHandler (st : ServerState) (text filename : String) (now : ℕ)
    (embed : String → Except String (List ℝ)) (writeOk : Bool) :
    ServerState × UploadResult :=
  match embedChunks embed (chunkText text 800 200) with
  | .error e => (st, .failure ("Upload failed: " ++ e))
  | .ok embeddedChunks =>
    let docId := toString now
    let st' : ServerState :=
      { st with documents := putDoc st.documents docId ⟨filename, embeddedChunks, [], now⟩ }
    match saveDocuments writeOk st' with
    | .ok st'' => (st'', .success docId filename embeddedChunks.length)
    | .error _ => (st', .failure "Upload failed")

/-! ### Ask handler (server.js lines 175-242)

Blank questions and unknown document ids are rejected up front; the question is
embedded, the chunks scored and ranked, the top four texts joined with a
visible separator, the prompt assembled with the history section, the external
generation capability called (its response normalization is folded into the
`generate` parameter, which yields the final answer string), the new history
entry pushed onto the in-memory document, and the store saved.  A failed save
throws after the in-memory push, so it is caught and answered with a 500
failure while the entry stays in memory. -/

inductive AskResult where
  | success (answer : String) (history : List HistoryEntry)
  | failure (msg : String)

def AskResult.isSuccess : AskResult → Bool
  | .success _ _ => true
  | .failure _ => false

/-- Model of `question.trim()` (leading and trailing whitespace removed),
written by structural recursion so that it evaluates. -/
def strTrim (s : String) : String :=
  String.mk (((s.data.dropWhile Char.isWhitespace).reverse.dropWhile
    Char.isWhitespace).reverse)

def buildPrompt (topChunks historySec question : String) : String :=
  "\nYou are a helpful assistant. Answer the user\x27s question using ONLY the provided document content and any previous short Q&A history. If the answer isn\x27t in the document, say you don\x27t know and suggest where to look.\n\nDocument excerpts (most relevant first):\n"
    ++ topChunks
    ++ "\n\nPrevious short Q&A history (if any):\n"
    ++ historySec
    ++ "\n\nUser question:\n"
    ++ question
    ++ "\n\nAnswer concisely and clearly. If you cite parts of the document, indicate short quotes or paraphrases and include no invented facts.\n"

noncomputable def askHandler (st : ServerState) (docId question : String) (now : ℕ)
    (embed : String → Except String (List ℝ)) (generate : String → String)
    (writeOk : Bool) : ServerState × AskResult :=
  if strTrim question = "" then (st, .failure "No question provided")
  else if docId = "" then (st, .failure "Invalid or missing docId")
  else
    match lookupStore st.documents docId with
    | none => (st, .failure "Invalid or missing docId")
    | some doc =>
      match embed question with
      | .error e => (st, .failure ("Q&A failed: " ++ e))
      | .ok qVec =>
        let ranked := rankChunks qVec doc.chunks
        let topChunks := joinSep "\n\n---\n\n" ((ranked.take 4).map Prod.fst)
        let prompt := buildPrompt topChunks (historySection doc.history) question
        let rawAnswer := generate prompt
        let entry : HistoryEntry := ⟨question, rawAnswer, now⟩
        let doc' : Document := { doc with history := doc.history ++ [entry] }
        let st' : ServerState := { st with documents := putDoc st.documents docId doc' }
        match saveDocuments writeOk st' with
        | .ok st'' => (st'', .success rawAnswer doc'.history)
        | .error _ => (st', .failure "Q&A failed")

theorem embedChunks_error_of_mem (embed : String → Except String (List ℝ)) :
    ∀ (l : List String), (∃ c ∈ l, ∃ e, embed c = .error e) →
      ∃ e', embedChunks embed l = .error e' := by
  intro l
  induction l with
  | nil => rintro ⟨c, hc, -⟩; exact absurd hc (List.not_mem_nil c)
  | cons c cs ih =>
    rintro ⟨c', hc', e, he⟩
    cases hec : embed c with
    | error e0 =>
      refine ⟨e0, ?_⟩
      unfold embedChunks
      rw [hec]
    | ok v =>
      rcases List.mem_cons.mp hc' with rfl | hmem
      · rw [he] at hec
        exact absurd hec (by simp)
      · obtain ⟨e', he'⟩ := ih ⟨c', hmem, e, he⟩
        refine ⟨e', ?_⟩
        unfold embedChunks
        rw [hec, he']

/-- Claim C3 (upload atomicity): if, for a non-empty chunk sequence, the
embedding call fails on some chunk, the upload request answers with a failure,
the whole server state (in-memory mapping and durable copy) is exactly what it
was before the upload began, and in particular no document exists under the
upload's intended id when none did before. -/
theorem c3_upload_atomicity (st : ServerState) (text filename : String) (now : ℕ)
    (embed : String → Except String (List ℝ)) (writeOk : Bool)
    (_hne : chunkText text 800 200 ≠ [])
    (hfail : ∃ c ∈ chunkText text 800 200, ∃ e, embed c = .error e) :
    (uploadHandler st text filename now embed writeOk).1 = st ∧
    ((uploadHandler st text filename now embed writeOk).2).isSuccess = false ∧
    (lookupStore st.documents (toString now) = none →
      lookupStore (uploadHandler st text filename now embed writeOk).1.documents
        (toString now) = none) := by
  obtain ⟨e', herr⟩ := embedChunks_error_of_mem embed _ hfail
  unfold uploadHandler
  rw [herr]
  exact ⟨rfl, rfl, fun h => h⟩

/-- Concrete failing embedder and empty initial state for the C3 witness. -/
def embedFail : String → Except String (List ℝ) := fun _ => .error "boom"

def emptyState : ServerState := ⟨[], []⟩

/-- Witness for C3 at a concrete failing upload of the text `"a"`. -/
theorem c3_upload_atomicity_witness :
    (uploadHandler emptyState "a" "f.txt" 7 embedFail true).1 = emptyState ∧
    ((uploadHandler emptyState "a" "f.txt" 7 embedFail true).2).isSuccess = false ∧
    (lookupStore emptyState.documents (toString 7) = none →
      lookupStore (uploadHandler emptyState "a" "f.txt" 7 embedFail true).1.documents
        (toString 7) = none) :=
  c3_upload_atomicity emptyState "a" "f.txt" 7 embedFail true (by decide)
    ⟨"a", by decide, "boom", rfl⟩

/-- Claim C4: whenever a mutating operation (document insertion by the upload
handler, history append by the ask handler) reports success, the durable copy
was synchronously rewritten and equals the in-memory mapping in the resulting
state. -/
theorem c4_persist_before_success :
    (∀ st text filename now embed writeOk,
      ((uploadHandler st text filename now embed writeOk).2).isSuccess = true →
      (uploadHandler st text filename now embed writeOk).1.disk
        = (uploadHandler st text filename now embed writeOk).1.documents) ∧
    (∀ st docId question now embed generate writeOk,
      ((askHandler st docId question now embed generate writeOk).2).isSuccess = true →
      (askHandler st docId question now embed generate writeOk).1.disk
        = (askHandler st docId question now embed generate writeOk).1.documents) := by
  constructor
  · intro st text filename now embed writeOk
    unfold uploadHandler
    split
    · intro h
      simp [UploadResult.isSuccess] at h
    · dsimp only
      split
      · rename_i st2 heq2
        intro _
        exact saveDocuments_ok _ _ _ heq2
      · intro h
        simp [UploadResult.isSuccess] at h
  · intro st docId question now embed generate writeOk
    unfold askHandler
    split
    · intro h
      simp [AskResult.isSuccess] at h
    · split
      · intro h
        simp [AskResult.isSuccess] at h
      · split
        · intro h
          simp [AskResult.isSuccess] at h
        · split
          · intro h
            simp [AskResult.isSuccess] at h
          · dsimp only
            split
            · rename_i st2 heq2
              intro _
              exact saveDocuments_ok _ _ _ heq2
            · intro h
              simp [AskResult.isSuccess] at h

/-- Concrete always-succeeding embedder, answer generator, and a one-document
state shared by the C4 and C10 witnesses. -/
def embedOk : String → Except String (List ℝ) := fun _ => .ok []

def genAns : String → String := fun _ => "the answer"

def docQ : Document := ⟨"f.txt", [], [], 0⟩

def stOne : ServerState := ⟨[("d", docQ)], [("d", docQ)]⟩

/-- Witness for C4: a concrete successful upload and a concrete successful ask
both leave the durable copy equal to the in-memory mapping. -/
theorem c4_persist_before_success_witness :
    (uploadHandler emptyState "" "f.txt" 0 embedOk true).1.disk
      = (uploadHandler emptyState "" "f.txt" 0 embedOk true).1.documents ∧
    (askHandler stOne "d" "q" 0 embedOk genAns true).1.disk
      = (askHandler stOne "d" "q" 0 embedOk genAns true).1.documents :=
  ⟨c4_persist_before_success.1 emptyState "" "f.txt" 0 embedOk true rfl,
   c4_persist_before_success.2 stOne "d" "q" 0 embedOk genAns true rfl⟩

/-- Claim C10: in the ask handler the history entry is pushed onto the
in-memory document before `saveDocuments()`; if the durable write fails the
request answers with a failure, the durable copy is untouched, yet the
in-memory document already contains the appended entry, so (when the two
copies agreed beforehand) the in-memory and durable mappings now differ. -/
theorem c10_ask_persist_failure (st : ServerState) (docId question : String)
    (now : ℕ) (embed : String → Except String (List ℝ)) (generate : String → String)
    (doc : Document) (qVec : List ℝ)
    (hq : strTrim question ≠ "") (hid : docId ≠ "")
    (hdoc : lookupStore st.documents docId = some doc)
    (hembed : embed question = .ok qVec) :
    ((askHandler st docId question now embed generate false).2).isSuccess = false ∧
    (askHandler st docId question now embed generate false).1.disk = st.disk ∧
    (∃ ans, lookupStore
        (askHandler st docId question now embed generate false).1.documents docId
      = some { doc with history := doc.history ++ [⟨question, ans, now⟩] }) ∧
    (st.disk = st.documents →
      (askHandler st docId question now embed generate false).1.documents
        ≠ (askHandler st docId question now embed generate false).1.disk) := by
  have hsv : ∀ s : ServerState, saveDocuments false s = .error "write failed" :=
    fun s => rfl
  refine ⟨?_, ?_, ?_, ?_⟩
  · unfold askHandler
    rw [if_neg hq, if_neg hid, hdoc, hembed]
    dsimp only
    rw [hsv]
    rfl
  · unfold askHandler
    rw [if_neg hq, if_neg hid, hdoc, hembed]
    dsimp only
    rw [hsv]
  · unfold askHandler
    rw [if_neg hq, if_neg hid, hdoc, hembed]
    dsimp only
    rw [hsv]
    exact ⟨_, lookup_putDoc _ _ _⟩
  · intro hdm
    unfold askHandler
    rw [if_neg hq, if_neg hid, hdoc, hembed]
    dsimp only
    rw [hsv]
    dsimp only
    generalize generate (buildPrompt
        (joinSep "\n\n---\n\n" ((List.take 4 (rankChunks qVec doc.chunks)).map Prod.fst))
        (historySection doc.history) question) = ans
    intro heq
    have h1 := lookup_putDoc st.documents docId
      { doc with history := doc.history ++ [⟨question, ans, now⟩] }
    rw [heq, hdm, hdoc] at h1
    have h3 := Option.some.inj h1
    have h4 := congrArg (fun d => d.history.length) h3
    simp at h4

/-- Witness for C10: a concrete ask with a failing durable write answers with
a failure, leaves the disk copy untouched, and leaves the appended entry in
the in-memory document, making the two copies differ. -/
theorem c10_ask_persist_failure_witness :
    ((askHandler stOne "d" "q" 5 embedOk genAns false).2).isSuccess = false ∧
    (askHandler stOne "d" "q" 5 embedOk genAns false).1.disk = stOne.disk ∧
    (∃ ans, lookupStore
        (askHandler stOne "d" "q" 5 embedOk genAns false).1.documents "d"
      = some { docQ with history := docQ.history ++ [⟨"q", ans, 5⟩] }) ∧
    (stOne.disk = stOne.documents →
      (askHandler stOne "d" "q" 5 embedOk genAns false).1.documents
        ≠ (askHandler stOne "d" "q" 5 embedOk genAns false).1.disk) :=
  c10_ask_persist_failure stOne "d" "q" 5 embedOk genAns docQ []
    (by decide) (by decide) rfl rfl
